import Mathlib

/-
Verification of the pico-chess-clock game controller core (src/main.rs)
against its natural-language specification.

Shallow embedding conventions:
* `Instant` values are modelled as `Nat` milliseconds (embassy_time's
  monotonic clock); every operation that reads the clock takes the current
  time `now : Nat` as an explicit argument.
* Rust `i32` values are modelled as `Int` together with `wrap32`, which
  performs the two's-complement wrap that release-mode `i32` arithmetic
  applies on overflow; `u64 as i32` casts are likewise `wrap32`.
* GPIO LED outputs are modelled as a `Bool` field of the owning entity
  (`true` = high).  The LCD is modelled as the list of commands the code
  issues to it.
-/

namespace PicoChess

/-- Constants from src/main.rs lines 23-27. -/
def DEBOUNCE_DELAY_MILLIS : Nat := 20

def MINS_TO_MILLIS : Int := 60 * 1000

def DEFAULT_TURN_MILLIS : Int := 10 * MINS_TO_MILLIS + 999

def MAX_TURN_MILLIS : Int := 30 * MINS_TO_MILLIS

def HOLD_TIME_SECS : Nat := 1

/-- Two's-complement wrap of an integer into the `i32` range, the result of
release-mode `i32` arithmetic on overflow (and of `as i32` casts). -/
def wrap32 (x : Int) : Int := (x + 2147483648) % 4294967296 - 2147483648

/-- Rust `i32::abs` in release mode: the mathematical absolute value wrapped
into the `i32` range (so `i32::MIN.abs() = i32::MIN`). -/
def rustAbs32 (x : Int) : Int := wrap32 (x.natAbs : Int)

/-- Player state, from `struct Player` (src/main.rs lines 62-67); the
`led: Output` handle is modelled by its level (`true` = high). -/
structure Player where
  millis_left : Int
  is_active : Bool
  time_activated : Option Nat
  led : Bool
deriving DecidableEq

/-- `Player::new` (src/main.rs lines 70-77); `main` passes in an LED handle
initialized to `Level::Low`. -/
def Player.new : Player :=
  { millis_left := DEFAULT_TURN_MILLIS
    is_active := false
    time_activated := none
    led := false }

/-- `Player::decrement_time` (src/main.rs lines 81-88). -/
def Player.decrement_time (p : Player) (mins : Int) : Player :=
  let millis := wrap32 (mins * MINS_TO_MILLIS)
  if p.millis_left > millis then
    { p with millis_left := wrap32 (p.millis_left - millis) }
  else
    { p with millis_left := MAX_TURN_MILLIS }

/-- Rust `"{:>02}"` formatting of an `i32`: sign-aware zero padding to a
minimum width of two characters. -/
def fmtPad2 (n : Int) : String :=
  if 0 ≤ n ∧ n < 10 then ("0") ++ toString n else toString n

/-- The sign/minutes/seconds rendering of a millisecond count performed by
`Player::formatted_time` (src/main.rs lines 97-101): Rust `/` and `%` on
`i32` truncate toward zero, hence `Int.tdiv` / `Int.tmod`. -/
def formatMillis (ms : Int) : String :=
  (if ms < 0 then ("-") else ("")) ++ fmtPad2 ((rustAbs32 ms).tdiv MINS_TO_MILLIS)
    ++ (":") ++ fmtPad2 (((rustAbs32 ms).tmod MINS_TO_MILLIS).tdiv 1000)

/-- `Player::formatted_time` (src/main.rs lines 92-103): subtracts the
elapsed active time (a `u64 as i32` cast) before rendering. -/
def Player.formatted_time (p : Player) (now : Nat) : String :=
  let ms := match p.time_activated with
    | some t => wrap32 (p.millis_left - wrap32 ((now - t : Nat) : Int))
    | none => p.millis_left
  formatMillis ms

/-- `Player::start_turn` (src/main.rs lines 106-112). -/
def Player.start_turn (p : Player) (now : Nat) : Player :=
  if !p.is_active then
    { p with is_active := true, time_activated := some now, led := true }
  else p

/-- `Player::end_turn` (src/main.rs lines 115-125): if active, deactivates,
subtracts the elapsed time when an activation instant is recorded, and
lowers the LED. -/
def Player.end_turn (p : Player) (now : Nat) : Player :=
  if p.is_active then
    match p.time_activated with
    | some t =>
        { p with is_active := false
                 millis_left := wrap32 (p.millis_left - wrap32 ((now - t : Nat) : Int))
                 time_activated := none
                 led := false }
    | none => { p with is_active := false, led := false }
  else p

/-- `Player::reset` (src/main.rs lines 128-132); note it does not touch the
LED output. -/
def Player.reset (p : Player) : Player :=
  { p with millis_left := DEFAULT_TURN_MILLIS
           is_active := false
           time_activated := none }

/-- `enum GameStatus` (src/main.rs lines 136-140). -/
inductive GameStatus where
  | PreGame
  | Active
  | Paused
deriving DecidableEq

/-- `enum Color` (src/main.rs lines 149-153). -/
inductive Color where
  | Red
  | Yellow
  | Blue
deriving DecidableEq

/-- `enum ButtonEvent` (src/main.rs lines 143-146). -/
inductive ButtonEvent where
  | Pressed (c : Color)
  | Held (c : Color)
deriving DecidableEq

/-- `struct Game` (src/main.rs lines 30-34). -/
structure Game where
  phase : GameStatus
  red_player : Player
  blue_player : Player
deriving DecidableEq

/-- `Game::reset` (src/main.rs lines 54-58). -/
def Game.reset (g : Game) : Game :=
  { g with phase := GameStatus.PreGame
           red_player := g.red_player.reset
           blue_player := g.blue_player.reset }

/-- The game state built in `main` (src/main.rs lines 223-227). -/
def initGame : Game :=
  { phase := GameStatus.PreGame
    red_player := Player.new
    blue_player := Player.new }

/-- One button event processed by the `main` loop (src/main.rs lines
229-301): the per-phase `match` arms of the PreGame, Paused and Active
loops, including the phase updates that follow them, grouped by phase as
the source's loops are.  Display refreshes and Active-phase tick timeouts
do not change the game state and are omitted. -/
def Game.step : Game → Nat → ButtonEvent → Game
  | ⟨GameStatus.PreGame, r, b⟩, _, ButtonEvent.Pressed Color.Red =>
      ⟨GameStatus.PreGame, r.decrement_time 1, b⟩
  | ⟨GameStatus.PreGame, r, b⟩, _, ButtonEvent.Held Color.Red =>
      ⟨GameStatus.PreGame, r.decrement_time 5, b⟩
  | ⟨GameStatus.PreGame, r, b⟩, _, ButtonEvent.Pressed Color.Blue =>
      ⟨GameStatus.PreGame, r, b.decrement_time 1⟩
  | ⟨GameStatus.PreGame, r, b⟩, _, ButtonEvent.Held Color.Blue =>
      ⟨GameStatus.PreGame, r, b.decrement_time 5⟩
  | ⟨GameStatus.PreGame, r, b⟩, _, ButtonEvent.Pressed Color.Yellow =>
      ⟨GameStatus.Paused, r, b⟩
  | ⟨GameStatus.PreGame, r, b⟩, _, _ => ⟨GameStatus.PreGame, r, b⟩
  | ⟨GameStatus.Paused, r, b⟩, now, ButtonEvent.Pressed Color.Red =>
      ⟨GameStatus.Active, r, b.start_turn now⟩
  | ⟨GameStatus.Paused, r, b⟩, now, ButtonEvent.Pressed Color.Blue =>
      ⟨GameStatus.Active, r.start_turn now, b⟩
  | ⟨GameStatus.Paused, r, b⟩, _, ButtonEvent.Held Color.Yellow =>
      Game.reset ⟨GameStatus.Paused, r, b⟩
  | ⟨GameStatus.Paused, r, b⟩, _, _ => ⟨GameStatus.Paused, r, b⟩
  | ⟨GameStatus.Active, r, b⟩, now, ButtonEvent.Pressed Color.Red =>
      ⟨GameStatus.Active, r.end_turn now, b.start_turn now⟩
  | ⟨GameStatus.Active, r, b⟩, now, ButtonEvent.Pressed Color.Blue =>
      ⟨GameStatus.Active, r.start_turn now, b.end_turn now⟩
  | ⟨GameStatus.Active, r, b⟩, now, ButtonEvent.Pressed Color.Yellow =>
      ⟨GameStatus.Paused, r.end_turn now, b.end_turn now⟩
  | ⟨GameStatus.Active, r, b⟩, now, ButtonEvent.Held Color.Yellow =>
      Game.reset ⟨GameStatus.Active, r.end_turn now, b.end_turn now⟩
  | ⟨GameStatus.Active, r, b⟩, _, _ => ⟨GameStatus.Active, r, b⟩

/-- A trace of timestamped button events folded through the controller. -/
def Game.run (g : Game) (evs : List (Nat × ButtonEvent)) : Game :=
  evs.foldl (fun gg ne => gg.step ne.1 ne.2) g

/-- Commands the code issues to the HD44780 display driver. -/
inductive LcdCmd where
  | reset
  | write (s : String)
  | setCursor (n : Nat)
deriving DecidableEq

/-- Rust `"{:<8}"`: left-justify in a field of minimum width 8 (never
truncates). -/
def leftJust8 (s : String) : String :=
  s ++ String.mk (List.replicate (8 - s.length) ' ')

/-- Rust `"{:>8}"`: right-justify in a field of minimum width 8 (never
truncates). -/
def rightJust8 (s : String) : String :=
  String.mk (List.replicate (8 - s.length) ' ') ++ s

/-- `Game::display_string` (src/main.rs lines 38-51), as the command
sequence sent to the LCD. -/
def Game.display_string (g : Game) (now : Nat) : List LcdCmd :=
  let buf := leftJust8 (g.red_player.formatted_time now)
      ++ rightJust8 (g.blue_player.formatted_time now)
  [LcdCmd.reset, LcdCmd.write ("Red         Blue"), LcdCmd.setCursor 40,
    LcdCmd.write buf]

/-- The operations on a `Player` named by the spec (section 4.2). -/
inductive PlayerOp where
  | startOp (now : Nat)
  | endOp (now : Nat)
  | resetOp
  | decOp (m : Int)

/-- Apply one spec-named operation to a player. -/
def Player.applyOp (p : Player) : PlayerOp → Player
  | PlayerOp.startOp now => p.start_turn now
  | PlayerOp.endOp now => p.end_turn now
  | PlayerOp.resetOp => p.reset
  | PlayerOp.decOp m => p.decrement_time m

/-- Fold a sequence of player operations. -/
def Player.runOps (p : Player) (ops : List PlayerOp) : Player :=
  ops.foldl Player.applyOp p

/-- Transition table of spec section 4.3, transcribed cell by cell
(event-major, as the spec lays it out); unlisted cells leave the state
unchanged.  This is the spec-side description that `Game.step` is compared
against. -/
def specTable : Game → Nat → ButtonEvent → Game
  | ⟨GameStatus.PreGame, r, b⟩, _, ButtonEvent.Pressed Color.Red =>
      ⟨GameStatus.PreGame, r.decrement_time 1, b⟩
  | ⟨GameStatus.Paused, r, b⟩, now, ButtonEvent.Pressed Color.Red =>
      ⟨GameStatus.Active, r, b.start_turn now⟩
  | ⟨GameStatus.Active, r, b⟩, now, ButtonEvent.Pressed Color.Red =>
      ⟨GameStatus.Active, r.end_turn now, b.start_turn now⟩
  | ⟨GameStatus.PreGame, r, b⟩, _, ButtonEvent.Held Color.Red =>
      ⟨GameStatus.PreGame, r.decrement_time 5, b⟩
  | ⟨GameStatus.PreGame, r, b⟩, _, ButtonEvent.Pressed Color.Blue =>
      ⟨GameStatus.PreGame, r, b.decrement_time 1⟩
  | ⟨GameStatus.Paused, r, b⟩, now, ButtonEvent.Pressed Color.Blue =>
      ⟨GameStatus.Active, r.start_turn now, b⟩
  | ⟨GameStatus.Active, r, b⟩, now, ButtonEvent.Pressed Color.Blue =>
      ⟨GameStatus.Active, r.start_turn now, b.end_turn now⟩
  | ⟨GameStatus.PreGame, r, b⟩, _, ButtonEvent.Held Color.Blue =>
      ⟨GameStatus.PreGame, r, b.decrement_time 5⟩
  | ⟨GameStatus.PreGame, r, b⟩, _, ButtonEvent.Pressed Color.Yellow =>
      ⟨GameStatus.Paused, r, b⟩
  | ⟨GameStatus.Active, r, b⟩, now, ButtonEvent.Pressed Color.Yellow =>
      ⟨GameStatus.Paused, r.end_turn now, b.end_turn now⟩
  | ⟨GameStatus.Paused, r, b⟩, _, ButtonEvent.Held Color.Yellow =>
      Game.reset ⟨GameStatus.Paused, r, b⟩
  | ⟨GameStatus.Active, r, b⟩, now, ButtonEvent.Held Color.Yellow =>
      Game.reset ⟨GameStatus.Active, r.end_turn now, b.end_turn now⟩
  | g, _, _ => g

/-- Spec-side formatter, following the words of the spec (section 4.2
numeric semantics) and of the claim: sign prefix exactly when negative,
minutes = |ms| / 60000, seconds = (|ms| / 1000) mod 60, zero-padded to two
digits. -/
def specFormatMillis (ms : Int) : String :=
  (if ms < 0 then ("-") else ("")) ++ fmtPad2 ((ms.natAbs / 60000 : Nat) : Int)
    ++ (":") ++ fmtPad2 ((ms.natAbs / 1000 % 60 : Nat) : Int)

/-- The §3 invariant: `activated_at` is `Some` iff `active`. -/
def actInv (p : Player) : Prop := p.time_activated.isSome = p.is_active

/-- The §3 invariant on the game aggregate: at most one player active in
the Active phase, none otherwise. -/
def activeInv (g : Game) : Prop :=
  (g.phase = GameStatus.Active →
    g.red_player.is_active = false ∨ g.blue_player.is_active = false) ∧
  (g.phase ≠ GameStatus.Active →
    g.red_player.is_active = false ∧ g.blue_player.is_active = false)

/-! Helper lemmas -/

theorem wrap32_eq_self (x : Int) (h1 : -2147483648 ≤ x) (h2 : x < 2147483648) :
    wrap32 x = x := by
  unfold wrap32
  rw [Int.emod_eq_of_lt (by omega) (by omega)]
  omega

theorem is_active_start_turn (p : Player) (now : Nat) :
    (p.start_turn now).is_active = true := by
  unfold Player.start_turn
  cases h : p.is_active <;> simp [h]

theorem is_active_end_turn (p : Player) (now : Nat) :
    (p.end_turn now).is_active = false := by
  unfold Player.end_turn
  cases h : p.is_active <;> cases p.time_activated <;> simp [h]

theorem is_active_decrement_time (p : Player) (m : Int) :
    (p.decrement_time m).is_active = p.is_active := by
  unfold Player.decrement_time
  by_cases h : p.millis_left > wrap32 (m * MINS_TO_MILLIS) <;> simp [h]

theorem time_activated_decrement_time (p : Player) (m : Int) :
    (p.decrement_time m).time_activated = p.time_activated := by
  unfold Player.decrement_time
  by_cases h : p.millis_left > wrap32 (m * MINS_TO_MILLIS) <;> simp [h]

theorem is_active_reset (p : Player) : p.reset.is_active = false := rfl

theorem activeInv_step (g : Game) (now : Nat) (e : ButtonEvent)
    (h : activeInv g) : activeInv (g.step now e) := by
  obtain ⟨h1, h2⟩ := h
  rcases g with ⟨ph, r, b⟩
  cases ph <;> cases e <;> rename_i c <;> cases c <;>
    simp_all [Game.step, activeInv, Game.reset, is_active_start_turn,
      is_active_end_turn, is_active_decrement_time, is_active_reset]

theorem activeInv_init : activeInv initGame := by
  simp [activeInv, initGame, Player.new]

theorem activeInv_run (evs : List (Nat × ButtonEvent)) (g : Game)
    (h : activeInv g) : activeInv (g.run evs) := by
  induction evs generalizing g with
  | nil => exact h
  | cons x xs ih => exact ih _ (activeInv_step g x.1 x.2 h)

theorem actInv_applyOp (p : Player) (op : PlayerOp) (h : actInv p) :
    actInv (p.applyOp op) := by
  cases op with
  | startOp now =>
      unfold Player.applyOp Player.start_turn
      cases hb : p.is_active <;> simp_all [actInv]
  | endOp now =>
      unfold Player.applyOp Player.end_turn
      cases hb : p.is_active <;> cases ht : p.time_activated <;>
        simp_all [actInv]
  | resetOp => simp [Player.applyOp, Player.reset, actInv]
  | decOp m =>
      unfold actInv
      rw [Player.applyOp, time_activated_decrement_time, is_active_decrement_time]
      exact h

theorem leftJust8_length (s : String) (h : s.length ≤ 8) :
    (leftJust8 s).length = 8 := by
  unfold leftJust8
  rw [String.length_append]
  show s.length + (List.replicate (8 - s.length) ' ').length = 8
  rw [List.length_replicate]
  omega

theorem rightJust8_length (s : String) (h : s.length ≤ 8) :
    (rightJust8 s).length = 8 := by
  unfold rightJust8
  rw [String.length_append]
  show (List.replicate (8 - s.length) ' ').length + s.length = 8
  rw [List.length_replicate]
  omega

theorem decrement_time_spec (p : Player) (m : Int) :
    (wrap32 (m * MINS_TO_MILLIS) < p.millis_left →
      (p.decrement_time m).millis_left =
        wrap32 (p.millis_left - wrap32 (m * MINS_TO_MILLIS))) ∧
    (p.millis_left ≤ wrap32 (m * MINS_TO_MILLIS) →
      (p.decrement_time m).millis_left = MAX_TURN_MILLIS) := by
  unfold Player.decrement_time
  by_cases hc : p.millis_left > wrap32 (m * MINS_TO_MILLIS)
  · exact ⟨fun h => by simp [hc], fun h => absurd hc (by omega)⟩
  · exact ⟨fun h => absurd h (by omega), fun h => by simp [hc]⟩

/-! Claim theorems -/

/-- Claim C1: for every (ButtonEvent, GamePhase) pair, one controller step
performs exactly the transition and side effects of the table in spec
section 4.3, and every unlisted combination leaves the game state
unchanged. -/
theorem c1_step_matches_table (g : Game) (now : Nat) (e : ButtonEvent) :
    g.step now e = specTable g now e := by
  rcases g with ⟨ph, r, b⟩
  cases ph <;> cases e <;> rename_i c <;> cases c <;> rfl

/-- Claim C2: in every state reachable by the controller from the initial
state, at most one of the two player timers is active while the phase is
Active, and both are inactive while the phase is PreGame or Paused. -/
theorem c2_active_invariant (evs : List (Nat × ButtonEvent)) :
    ((initGame.run evs).phase = GameStatus.Active →
      ¬((initGame.run evs).red_player.is_active = true ∧
        (initGame.run evs).blue_player.is_active = true)) ∧
    (((initGame.run evs).phase = GameStatus.PreGame ∨
      (initGame.run evs).phase = GameStatus.Paused) →
      (initGame.run evs).red_player.is_active = false ∧
      (initGame.run evs).blue_player.is_active = false) := by
  obtain ⟨h1, h2⟩ := activeInv_run evs initGame activeInv_init
  constructor
  · intro hph hboth
    rcases h1 hph with h | h <;> simp_all
  · intro hph
    apply h2
    rcases hph with h | h <;> simp [h]

set_option maxRecDepth 4000 in
/-- Claim C2 witness: the invariant instantiated on two concrete traces,
one ending in the Active phase and one in the PreGame phase. -/
theorem c2_active_invariant_witness :
    ¬((initGame.run [(0, ButtonEvent.Pressed Color.Yellow),
        (5, ButtonEvent.Pressed Color.Red)]).red_player.is_active = true ∧
      (initGame.run [(0, ButtonEvent.Pressed Color.Yellow),
        (5, ButtonEvent.Pressed Color.Red)]).blue_player.is_active = true) ∧
    ((initGame.run []).red_player.is_active = false ∧
     (initGame.run []).blue_player.is_active = false) := by
  constructor
  · exact (c2_active_invariant [(0, ButtonEvent.Pressed Color.Yellow),
      (5, ButtonEvent.Pressed Color.Red)]).1 (by decide)
  · exact (c2_active_invariant []).2 (Or.inl (by decide))

/-- Claim C7: for each player timer, in every state reachable by any
sequence of the operations new, start_turn, end_turn, reset and
decrement_time from `Player::new`, the activation timestamp is `Some` if
and only if the player is active. -/
theorem c7_activation_iff_active (ops : List PlayerOp) :
    (Player.new.runOps ops).time_activated.isSome =
      (Player.new.runOps ops).is_active := by
  have h : ∀ (l : List PlayerOp) (p : Player), actInv p → actInv (p.runOps l) := by
    intro l
    induction l with
    | nil => intro p hp; exact hp
    | cons x xs ih => intro p hp; exact ih _ (actInv_applyOp p x hp)
  exact h ops Player.new rfl

/-- Claim C8: `start_turn` on an inactive player marks it active, records
the current time as activation instant and raises the LED; on an active
player it leaves the whole state unchanged. -/
theorem c8_start_turn (p : Player) (now : Nat) :
    (p.is_active = false →
      p.start_turn now =
        { p with is_active := true, time_activated := some now, led := true }) ∧
    (p.is_active = true → p.start_turn now = p) := by
  constructor <;> intro h <;> simp [Player.start_turn, h]

/-- Claim C8 witness: both branches at concrete players. -/
theorem c8_start_turn_witness :
    (⟨600999, false, none, false⟩ : Player).start_turn 7 =
      ⟨600999, true, some 7, true⟩ ∧
    (⟨1234, true, some 3, true⟩ : Player).start_turn 7 =
      ⟨1234, true, some 3, true⟩ := by
  constructor
  · exact (c8_start_turn ⟨600999, false, none, false⟩ 7).1 rfl
  · exact (c8_start_turn ⟨1234, true, some 3, true⟩ 7).2 rfl

/-- Claim C10: at startup and after every reset the stored remaining time
is exactly 600999 ms (10 minutes plus a 999 ms truncation offset), which
formats as "10:00"; the wrap target MAX_TURN_MILLIS is exactly 1800000 ms
with no offset. -/
theorem c10_default_allowance :
    DEFAULT_TURN_MILLIS = 10 * 60000 + 999 ∧
    DEFAULT_TURN_MILLIS = 600999 ∧
    Player.new.millis_left = 600999 ∧
    (∀ p : Player, p.reset.millis_left = 600999) ∧
    (∀ g : Game, g.reset.red_player.millis_left = 600999 ∧
      g.reset.blue_player.millis_left = 600999) ∧
    (∀ now : Nat, Player.new.formatted_time now = ("10:00")) ∧
    MAX_TURN_MILLIS = 1800000 := by
  refine ⟨rfl, rfl, rfl, fun p => rfl, fun g => ⟨rfl, rfl⟩, fun now => ?_, rfl⟩
  show formatMillis DEFAULT_TURN_MILLIS = ("10:00")
  rfl

/-- Claim C3: on an active player with a recorded activation instant,
`end_turn` subtracts exactly the elapsed wall time since the matching
`start_turn` from the remaining time (any representable elapsed duration,
including zero), clears the activation instant, marks the player inactive
and lowers the LED; on an inactive player it leaves the entire state
unchanged. -/
theorem c3_end_turn (p : Player) (now t : Nat)
    (hrep1 : (now : Int) - (t : Int) < 2147483648)
    (hrep2 : -2147483648 ≤ p.millis_left - ((now : Int) - (t : Int)))
    (hrep3 : p.millis_left < 2147483648) :
    (p.is_active = true → p.time_activated = some t → t ≤ now →
      p.end_turn now =
        { p with millis_left := p.millis_left - ((now : Int) - (t : Int))
                 is_active := false
                 time_activated := none
                 led := false }) ∧
    (p.is_active = false → p.end_turn now = p) := by
  obtain ⟨ml, ia, ta, led⟩ := p
  constructor
  · intro ha hta hle
    simp only at ha hta
    subst ha hta
    have hred : Player.end_turn ⟨ml, true, some t, led⟩ now =
        ⟨wrap32 (ml - wrap32 ((now - t : Nat) : Int)), false, none, false⟩ := rfl
    have hcast : ((now - t : Nat) : Int) = (now : Int) - (t : Int) := by omega
    rw [hred, hcast, wrap32_eq_self ((now : Int) - (t : Int)) (by omega) hrep1,
      wrap32_eq_self _ hrep2 (by omega)]
  · intro ha
    simp only at ha
    subst ha
    rfl

/-- Claim C3 witness: an active player with 600999 ms left, activated at
t = 5 and ended at t = 3005, loses exactly 3000 ms; `end_turn` on an
inactive player is an identity. -/
theorem c3_end_turn_witness :
    (⟨600999, true, some 5, true⟩ : Player).end_turn 3005 =
      ⟨597999, false, none, false⟩ ∧
    (⟨42, false, none, false⟩ : Player).end_turn 9 = ⟨42, false, none, false⟩ := by
  constructor
  · exact (c3_end_turn ⟨600999, true, some 5, true⟩ 3005 5 (by decide) (by decide)
      (by decide)).1 rfl rfl (by decide)
  · exact (c3_end_turn ⟨42, false, none, false⟩ 9 0 (by decide) (by decide)
      (by decide)).2 rfl

/-- Claim C4 counterexample: with pre-decrement allowance 1860001 ms (a
value above MAX_TURN_MILLIS, which no hypothesis of the claim excludes) and
m = 1, `decrement_time` yields 1800001 ms, which exceeds MAX_TURN_MILLIS —
so "the result never exceeds MAX_ALLOWANCE" is false as stated. -/
theorem c4_decrement_counterexample :
    ((⟨1860001, false, none, false⟩ : Player).decrement_time 1).millis_left
      = 1800001 ∧
    MAX_TURN_MILLIS <
      ((⟨1860001, false, none, false⟩ : Player).decrement_time 1).millis_left := by
  constructor <;> decide

/-- Claim C4 (amended): for every pre-decrement allowance and every
representable nonnegative minutes argument m, `decrement_time` subtracts
m minutes' worth of milliseconds when the allowance strictly exceeds that
amount and otherwise wraps the allowance to MAX_TURN_MILLIS (so the wrap
happens exactly when the pre-decrement allowance is ≤ m minutes); when the
pre-decrement allowance is at most MAX_TURN_MILLIS — as in every reachable
state — the result never exceeds MAX_TURN_MILLIS. -/
theorem c4_decrement_amended (p : Player) (m : Int) (h0 : 0 ≤ m)
    (h1 : m * MINS_TO_MILLIS < 2147483648)
    (h2 : -2147483648 ≤ p.millis_left) (h3 : p.millis_left < 2147483648) :
    (m * MINS_TO_MILLIS < p.millis_left →
      (p.decrement_time m).millis_left = p.millis_left - m * MINS_TO_MILLIS) ∧
    (p.millis_left ≤ m * MINS_TO_MILLIS →
      (p.decrement_time m).millis_left = MAX_TURN_MILLIS) ∧
    (p.millis_left ≤ MAX_TURN_MILLIS →
      (p.decrement_time m).millis_left ≤ MAX_TURN_MILLIS) := by
  have hpos : (0 : Int) ≤ m * MINS_TO_MILLIS :=
    mul_nonneg h0 (by norm_num [MINS_TO_MILLIS])
  have hw : wrap32 (m * MINS_TO_MILLIS) = m * MINS_TO_MILLIS :=
    wrap32_eq_self _ (by omega) h1
  obtain ⟨hs1, hs2⟩ := decrement_time_spec p m
  rw [hw] at hs1 hs2
  refine ⟨?_, ?_, ?_⟩
  · intro hlt
    rw [hs1 hlt, wrap32_eq_self _ (by omega) (by omega)]
  · intro hle
    exact hs2 hle
  · intro hmax
    by_cases hlt : m * MINS_TO_MILLIS < p.millis_left
    · rw [hs1 hlt, wrap32_eq_self _ (by omega) (by omega)]
      omega
    · rw [hs2 (by omega)]

/-- Claim C4 witness: the default 600999 ms allowance minus one minute is
540999 ms; an allowance of exactly one minute wraps to MAX_TURN_MILLIS; a
below-maximum allowance stays below the maximum. -/
theorem c4_decrement_witness :
    (Player.new.decrement_time 1).millis_left = 600999 - 1 * MINS_TO_MILLIS ∧
    ((⟨60000, false, none, false⟩ : Player).decrement_time 1).millis_left =
      MAX_TURN_MILLIS ∧
    (Player.new.decrement_time 1).millis_left ≤ MAX_TURN_MILLIS := by
  refine ⟨?_, ?_, ?_⟩
  · exact (c4_decrement_amended Player.new 1 (by decide) (by decide) (by decide)
      (by decide)).1 (by decide)
  · exact (c4_decrement_amended ⟨60000, false, none, false⟩ 1 (by decide) (by decide)
      (by decide) (by decide)).2.1 (by decide)
  · exact (c4_decrement_amended Player.new 1 (by decide) (by decide) (by decide)
      (by decide)).2.2 (by decide)

/-- Claim C5 counterexample: at ms = -2^31 (a signed 32-bit millisecond
value) the release-mode `i32::abs` wraps to -2^31, so the code renders
"--35791:-23" while the claimed formula gives "-35791:23". -/
theorem c5_format_counterexample :
    formatMillis (-2147483648) = ("--35791:-23") ∧
    specFormatMillis (-2147483648) = ("-35791:23") ∧
    formatMillis (-2147483648) ≠ specFormatMillis (-2147483648) := by
  refine ⟨rfl, rfl, by decide⟩

/-- Claim C5 (amended): for every signed 32-bit millisecond value ms other
than -2^31, the formatter outputs a sign prefix exactly when ms is
negative, then minutes = |ms| / 60000 and seconds = (|ms| / 1000) mod 60,
each zero-padded to two digits. -/
theorem c5_format_amended (ms : Int) (h1 : -2147483648 < ms)
    (h2 : ms < 2147483648) :
    formatMillis ms = specFormatMillis ms := by
  have ha : rustAbs32 ms = (ms.natAbs : Int) :=
    wrap32_eq_self _ (by omega) (by omega)
  unfold formatMillis specFormatMillis
  rw [ha]
  have e1 : ((ms.natAbs : Int)).tdiv MINS_TO_MILLIS =
      ((ms.natAbs / 60000 : Nat) : Int) := rfl
  have e2 : (((ms.natAbs : Int)).tmod MINS_TO_MILLIS).tdiv 1000 =
      ((ms.natAbs % 60000 / 1000 : Nat) : Int) := rfl
  have e3 : ms.natAbs % 60000 / 1000 = ms.natAbs / 1000 % 60 := by omega
  rw [e1, e2, e3]

/-- Claim C5 witness: the three formatting examples from the claim,
obtained through the amended theorem and by evaluation. -/
theorem c5_format_witness :
    formatMillis (-65000) = specFormatMillis (-65000) ∧
    formatMillis (-65000) = ("-01:05") ∧
    formatMillis 599000 = ("09:59") ∧
    formatMillis 0 = ("00:00") := by
  exact ⟨c5_format_amended (-65000) (by decide) (by decide), rfl, rfl, rfl⟩

/-- Claim C9 counterexample: for a Red time of -600000000 ms the formatted
time "-10000:00" is 9 characters wide, the `"{:<8}"` field does not
truncate it, and the second line written to the display has 17 characters,
not 16. -/
theorem c9_display_counterexample :
    Game.display_string
        ⟨GameStatus.PreGame, ⟨-600000000, false, none, false⟩, Player.new⟩ 0 =
      [LcdCmd.reset, LcdCmd.write ("Red         Blue"), LcdCmd.setCursor 40,
        LcdCmd.write ("-10000:00   10:00")] ∧
    ("-10000:00   10:00").length = 17 := by
  exact ⟨rfl, rfl⟩

/-- Claim C9 (amended): whenever both formatted player times fit in 8
characters (which holds for every time above -600000000 ms, in particular
in all normal operation), the display refresh writes the literal header
"Red         Blue", repositions the cursor to linear position 40, and
writes a 16-character second line made of Red's formatted time
left-justified in an 8-character field followed by Blue's formatted time
right-justified in an 8-character field. -/
theorem c9_display_amended (g : Game) (now : Nat)
    (h1 : (g.red_player.formatted_time now).length ≤ 8)
    (h2 : (g.blue_player.formatted_time now).length ≤ 8) :
    g.display_string now =
      [LcdCmd.reset, LcdCmd.write ("Red         Blue"), LcdCmd.setCursor 40,
        LcdCmd.write (leftJust8 (g.red_player.formatted_time now)
          ++ rightJust8 (g.blue_player.formatted_time now))] ∧
    (leftJust8 (g.red_player.formatted_time now)).length = 8 ∧
    (rightJust8 (g.blue_player.formatted_time now)).length = 8 ∧
    (leftJust8 (g.red_player.formatted_time now)
      ++ rightJust8 (g.blue_player.formatted_time now)).length = 16 := by
  refine ⟨rfl, leftJust8_length _ h1, rightJust8_length _ h2, ?_⟩
  rw [String.length_append, leftJust8_length _ h1, rightJust8_length _ h2]

/-- Claim C9 witness: the initial game displays "10:00" for both players
in a 16-character second line after the header and cursor move. -/
theorem c9_display_witness :
    initGame.display_string 0 =
      [LcdCmd.reset, LcdCmd.write ("Red         Blue"), LcdCmd.setCursor 40,
        LcdCmd.write ("10:00      10:00")] ∧
    (leftJust8 (initGame.red_player.formatted_time 0)
      ++ rightJust8 (initGame.blue_player.formatted_time 0)).length = 16 := by
  have h := c9_display_amended initGame 0 (by decide) (by decide)
  exact ⟨h.1, h.2.2.2⟩

end PicoChess
